import Mathlib

/-!
Verification of the CSV grep engine (`csvgrep.py`) from the handyscripts
repository: a shallow embedding of its data model and operations, followed
by theorems settling the specification claims.

Modelling conventions:
* A CSV row is a list of string fields (`Row`); the CSV reader of the
  Python standard library is abstracted away, so the engine receives the
  parsed rows directly (`Option (List Row)`, with `none` standing for
  `FileNotFoundError`).
* A compiled regular expression is abstracted as its search predicate
  `String → Bool`; `re.compile` is abstracted as a function
  `String → Option (String → Bool)` where `none` stands for `re.error`.
* Python's `int(...)` is modelled by `pyInt` (optional sign, digits with
  single underscores between digits, surrounding whitespace); a `none`
  result stands for `ValueError`.
* Python's `str.lower` is modelled on the ASCII range by `pyLower`, and
  `str.strip` by `pyStrip` (ASCII whitespace).
* `sys.exit(1)` paths are modelled by a `RunResult` with `exit = .failure`;
  `stdout` is the list of printed lines; warnings printed to `stderr` are
  counted, not rendered.
-/

namespace CsvGrep

/-- A CSV row: an ordered sequence of string fields. -/
abbrev Row := List String

/-- ASCII model of Python `str.lower` on a single character. -/
def pyLowerChar (c : Char) : Char :=
  if 'A' ≤ c ∧ c ≤ 'Z' then Char.ofNat (c.toNat + 32) else c

/-- ASCII model of Python `str.lower`. -/
def pyLower (s : String) : String :=
  String.mk (s.toList.map pyLowerChar)

/-- Model of Python `str.strip()` (no argument): drop whitespace from both ends. -/
def pyStrip (s : String) : String :=
  String.mk (((s.toList.dropWhile Char.isWhitespace).reverse.dropWhile
    Char.isWhitespace).reverse)

/-- Model of Python substring containment `needle in hay`: the needle's
characters occur contiguously inside the hay's characters. -/
def strContains (hay needle : String) : Bool :=
  decide (needle.toList <:+: hay.toList)

/-- Digit-run parser for `pyInt`: after the first digit, single underscores
may separate digits (Python 3 integer literal grammar as accepted by
`int(...)`). -/
def pyDigitsGo (acc : ℕ) : List Char → Option ℕ
  | [] => some acc
  | '_' :: c :: cs =>
      if c.isDigit then pyDigitsGo (acc * 10 + (c.toNat - 48)) cs else none
  | ['_'] => none
  | c :: cs =>
      if c.isDigit then pyDigitsGo (acc * 10 + (c.toNat - 48)) cs else none

/-- Nonempty digit run (underscore-separated), value in base 10. -/
def pyDigits : List Char → Option ℕ
  | [] => none
  | c :: cs => if c.isDigit then pyDigitsGo (c.toNat - 48) cs else none

/-- Model of Python `int(s)` on a character list: optional sign followed by
digits; `none` models `ValueError`. -/
def pyIntL : List Char → Option Int
  | '+' :: cs => (pyDigits cs).map (fun n => (n : Int))
  | '-' :: cs => (pyDigits cs).map (fun n => -(n : Int))
  | cs => (pyDigits cs).map (fun n => (n : Int))

/-- Model of Python `int(s)` on a string (whitespace around the number is
allowed, as in Python). -/
def pyInt (s : String) : Option Int :=
  pyIntL (pyStrip s).toList

/-- Model of Python `s.split(sep)` for a single-character separator:
splits at every occurrence, keeping empty pieces. -/
def splitAll (sep : Char) : List Char → List (List Char)
  | [] => [[]]
  | c :: cs =>
      if c = sep then [] :: splitAll sep cs
      else
        match splitAll sep cs with
        | g :: gs => (c :: g) :: gs
        | [] => [[c]]

/-- Model of Python `s.split(sep, 1)` for a single-character separator:
`none` when the separator does not occur (Python's `sep in s` test is
false), otherwise the pieces before and after the first occurrence. -/
def splitFirst (sep : Char) : List Char → Option (List Char × List Char)
  | [] => none
  | c :: cs =>
      if c = sep then some ([], cs)
      else (splitFirst sep cs).map (fun p => (c :: p.1, p.2))

/-- Result of `parse_column_spec`: the accumulated 0-indexed column set and
the number of out-of-bounds warnings printed to the diagnostic stream. -/
structure ParseResult where
  columns : Finset ℕ
  warnings : ℕ
deriving DecidableEq

/-- The 0-indexed positions `i` with `start_idx ≤ i ≤ end_idx` and
`0 ≤ i < max_cols`: the in-bounds part of a 1-indexed range token, as added
by the loop `for i in range(start_idx, end_idx + 1): if 0 <= i < max_cols`. -/
def rangePositions (start_idx end_idx : ℤ) (max_cols : ℕ) : Finset ℕ :=
  (Finset.range max_cols).filter (fun i => start_idx ≤ (i : ℤ) ∧ (i : ℤ) ≤ end_idx)

/-- One iteration of the `for part in spec.split(',')` loop of
`parse_column_spec` (csvgrep.py lines 55-77), acting on the accumulator;
`none` models a `ValueError` escaping from `int(...)`. -/
def processToken (max_cols : ℕ) (acc : ParseResult) (part0 : String) : Option ParseResult :=
  let part := (pyStrip part0).toList
  match splitFirst '-' part with
  | some (s, e) =>
      match pyIntL s, pyIntL e with
      | some sv, some ev =>
          let start_idx := sv - 1
          let end_idx := ev - 1
          let w := if start_idx < 0 ∨ (max_cols : ℤ) ≤ end_idx then 1 else 0
          some ⟨acc.columns ∪ rangePositions start_idx end_idx max_cols,
                acc.warnings + w⟩
      | _, _ => none
  | none =>
      match pyIntL part with
      | some n =>
          let col_idx := n - 1
          if col_idx < 0 ∨ (max_cols : ℤ) ≤ col_idx then
            some ⟨acc.columns, acc.warnings + 1⟩
          else
            some ⟨insert col_idx.toNat acc.columns, acc.warnings⟩
      | none => none

/-- `parse_column_spec(spec, max_cols)` (csvgrep.py lines 44-79): split the
spec on commas and process each token in order; the first `ValueError`
aborts the parse (`none`). -/
def parse_column_spec (spec : String) (max_cols : ℕ) : Option ParseResult :=
  (splitAll ',' spec.toList).foldlM
    (fun acc part => processToken max_cols acc (String.mk part)) ⟨∅, 0⟩

/-- `filter_columns(row, columns)` (csvgrep.py lines 82-87): `none` models
Python `None`; a falsy column set (absent or empty) returns the row
unchanged, otherwise the values at the sorted in-bounds positions. -/
def filter_columns (row : Row) (columns : Option (Finset ℕ)) : Row :=
  match columns with
  | none => row
  | some cols =>
      if cols = ∅ then row
      else ((cols.sort (· ≤ ·)).filter (fun i => i < row.length)).map
        (fun i => row.getD i "")

/-- `detect_delimiter(file_path)` (csvgrep.py lines 90-99). `readFile` is
the result of opening and reading the file (`none` models any I/O error);
`sniff` is `csv.Sniffer().sniff` on the 4096-character sample (`none`
models a sniffer exception). The bare `except:` returns a comma on any
failure. -/
def detect_delimiter (readFile : Option String) (sniff : String → Option String) :
    String :=
  match readFile with
  | none => ","
  | some content =>
      match sniff (content.take 4096) with
      | none => ","
      | some d => d

/-- The per-run configuration of the scan loop: the CLI flags together with
the parsed column filter and the search predicate of the compiled regex. -/
structure Config where
  pattern : String
  col_filter : Option (Finset ℕ) := none
  ignore_case : Bool := false
  fixed_strings : Bool := false
  invert_match : Bool := false
  show_line_numbers : Bool := false
  with_header : Bool := false
  no_header : Bool := false
  delimiter : String := ","
  regexFn : String → Bool := fun _ => false

/-- The match computation shared by the header fallthrough branch and the
data-row branch (csvgrep.py lines 174-181 and 190-198): join the fields
with the delimiter, then fixed-string containment when `fixed_strings` and
the pattern is nonempty (so `search_string` is truthy), else regex search
when the pattern is nonempty (so `regex` was compiled), else `True`. -/
def rowMatches (cfg : Config) (row : Row) : Bool :=
  let row_text := String.intercalate cfg.delimiter row
  if cfg.fixed_strings && !(cfg.pattern == "") then
    let search_string := if cfg.ignore_case then pyLower cfg.pattern else cfg.pattern
    let row_to_search := if cfg.ignore_case then pyLower row_text else row_text
    strContains row_to_search search_string
  else if !(cfg.pattern == "") then cfg.regexFn row_text
  else true

/-- One printed output line (csvgrep.py lines 166-169, 184-187, 201-204):
the projected row rejoined with the delimiter, optionally prefixed with the
1-based line number and a colon. -/
def emitRow (cfg : Config) (line_num : ℕ) (row : Row) : String :=
  let output_row := filter_columns row cfg.col_filter
  (if cfg.show_line_numbers then toString line_num ++ ":" else "") ++
    String.intercalate cfg.delimiter output_row

/-- The body of the row loop of `csvgrep` (csvgrep.py lines 160-204) for
one row at 1-based line number `line_num`: the list of lines it prints. -/
def processRow (cfg : Config) (line_num : ℕ) (row : Row) : List String :=
  if line_num = 1 then
    if cfg.with_header || (!cfg.no_header && cfg.pattern == "") then
      [emitRow cfg line_num row]
    else if cfg.no_header then []
    else if (rowMatches cfg row && !cfg.invert_match)
        || (!(rowMatches cfg row) && cfg.invert_match) then
      [emitRow cfg line_num row]
    else []
  else
    if (rowMatches cfg row && !cfg.invert_match)
        || (!(rowMatches cfg row) && cfg.invert_match) then
      [emitRow cfg line_num row]
    else []

/-- The full row loop: rows paired with 1-based line numbers, outputs
concatenated in order. -/
def scanRows (cfg : Config) (rows : List Row) : List String :=
  (rows.enumFrom 1).flatMap (fun p => processRow cfg p.1 p.2)

/-- Process exit status (`sys.exit(1)` versus normal return). -/
inductive ExitCode where
  | success
  | failure
deriving DecidableEq

/-- Observable outcome of one invocation: the stdout lines in order, and
the exit status. -/
structure RunResult where
  output : List String
  exit : ExitCode
deriving DecidableEq

/-- The CLI arguments of `csvgrep` relevant to the engine; `delimiter` is
the resolved delimiter (explicit, or the result of `detect_delimiter`). -/
structure Args where
  pattern : String
  columns : Option String := none
  ignore_case : Bool := false
  fixed_strings : Bool := false
  invert_match : Bool := false
  show_line_numbers : Bool := false
  with_header : Bool := false
  no_header : Bool := false
  delimiter : String := ","

/-- The scan configuration induced by the CLI arguments, a regex search
predicate and a parsed column filter. -/
def mkConfig (a : Args) (rf : String → Bool) (cf : Option (Finset ℕ)) : Config :=
  { pattern := a.pattern
    col_filter := cf
    ignore_case := a.ignore_case
    fixed_strings := a.fixed_strings
    invert_match := a.invert_match
    show_line_numbers := a.show_line_numbers
    with_header := a.with_header
    no_header := a.no_header
    delimiter := a.delimiter
    regexFn := rf }

/-- `csvgrep` from the file open onwards (csvgrep.py lines 138-211), after
matcher construction: `none` file models `FileNotFoundError`; an empty row
list returns immediately; `max_cols` is the maximum row length; a truthy
column spec is parsed (a `ValueError` exits with status 1); then the rows
are scanned. -/
def csvgrepScan (a : Args) (rf : String → Bool) (file : Option (List Row)) :
    RunResult :=
  match file with
  | none => ⟨[], .failure⟩
  | some rows =>
      if rows = [] then ⟨[], .success⟩
      else
        let max_cols := (rows.map List.length).foldl Nat.max 0
        match a.columns with
        | none => ⟨scanRows (mkConfig a rf none) rows, .success⟩
        | some spec =>
            if spec == "" then ⟨scanRows (mkConfig a rf none) rows, .success⟩
            else
              match parse_column_spec spec max_cols with
              | none => ⟨[], .failure⟩
              | some pr => ⟨scanRows (mkConfig a rf (some pr.columns)) rows, .success⟩

/-- The `csvgrep` function (csvgrep.py lines 102-211). `compile` abstracts
`re.compile` on the pattern (`none` models `re.error`); `file` abstracts
opening and CSV-parsing the input file (`none` models
`FileNotFoundError`). Matcher construction happens first: with a nonempty
pattern and `fixed_strings` unset, a failed compile exits with status 1
before the file is touched. -/
def csvgrep (a : Args) (compile : String → Option (String → Bool))
    (file : Option (List Row)) : RunResult :=
  if !(a.pattern == "") && !a.fixed_strings then
    match compile a.pattern with
    | none => ⟨[], .failure⟩
    | some rf => csvgrepScan a rf file
  else
    csvgrepScan a (fun _ => false) file

/-- The matcher of spec section 4.4, written from the specification's words
(for comparison with `rowMatches`): `AlwaysMatch` when the pattern is the
empty string, else `FixedStringMatcher` (substring of the optionally
case-folded text) when `fixed_strings`, else the compiled regex's search
predicate. -/
def specMatch (cfg : Config) (text : String) : Bool :=
  if cfg.pattern == "" then true
  else if cfg.fixed_strings then
    strContains (if cfg.ignore_case then pyLower text else text)
      (if cfg.ignore_case then pyLower cfg.pattern else cfg.pattern)
  else cfg.regexFn text

/-- The configuration with the invert-match flag flipped. -/
def flipInvert (cfg : Config) : Config :=
  { cfg with invert_match := !cfg.invert_match }

/-- The source's match computation agrees with the spec's matcher applied
to the delimiter-joined row text. -/
theorem rowMatches_eq_specMatch (cfg : Config) (row : Row) :
    rowMatches cfg row = specMatch cfg (String.intercalate cfg.delimiter row) := by
  unfold rowMatches specMatch
  cases hf : cfg.fixed_strings <;> cases hp : cfg.pattern == "" <;> simp [hf, hp]

/-- C1: every data row (line number at least 2) is emitted iff the
matcher's verdict on the delimiter-joined row text, XORed with
invert_match, is true; the matcher is the always-true predicate when the
pattern is empty (built into `specMatch`). -/
theorem data_row_emission (cfg : Config) (line_num : ℕ) (row : Row)
    (h : 2 ≤ line_num) :
    processRow cfg line_num row ≠ [] ↔
      xor (specMatch cfg (String.intercalate cfg.delimiter row))
        cfg.invert_match = true := by
  have h1 : line_num ≠ 1 := by omega
  unfold processRow
  rw [if_neg h1, ← rowMatches_eq_specMatch]
  cases hm : rowMatches cfg row <;> cases hi : cfg.invert_match <;> simp

/-- Witness for C1 at a concrete input: line 2 of a run with an empty
pattern is emitted. -/
theorem data_row_emission_witness :
    processRow { pattern := "" } 2 ["a", "b"] ≠ [] ↔
      xor (specMatch { pattern := "" } (String.intercalate "," ["a", "b"]))
        false = true :=
  data_row_emission { pattern := "" } 2 ["a", "b"] (by omega)

/-- C2: the header row (line 1) follows the three-flag policy table —
with_header prints unconditionally, else no_header suppresses, else an
empty pattern prints without a matcher check, else the data-row
matcher/invert decision applies; rows at line numbers at least 2 always
follow the data-row decision. -/
theorem header_policy (cfg : Config) (row : Row) :
    processRow cfg 1 row =
      (if cfg.with_header then [emitRow cfg 1 row]
       else if cfg.no_header then []
       else if cfg.pattern == "" then [emitRow cfg 1 row]
       else if xor (specMatch cfg (String.intercalate cfg.delimiter row))
           cfg.invert_match then [emitRow cfg 1 row]
       else [])
    ∧ ∀ n, 2 ≤ n →
        processRow cfg n row =
          (if xor (specMatch cfg (String.intercalate cfg.delimiter row))
              cfg.invert_match then [emitRow cfg n row]
           else []) := by
  constructor
  · unfold processRow
    rw [← rowMatches_eq_specMatch]
    cases hw : cfg.with_header <;> cases hn : cfg.no_header <;>
      cases hp : cfg.pattern == "" <;>
      cases hm : rowMatches cfg row <;> cases hi : cfg.invert_match <;> simp
  · intro n hn2
    have h1 : n ≠ 1 := by omega
    unfold processRow
    rw [if_neg h1, ← rowMatches_eq_specMatch]
    cases hm : rowMatches cfg row <;> cases hi : cfg.invert_match <;> simp

/-- Witness for C2 at a concrete input: a run with with_header set prints
the header row. -/
theorem header_policy_witness :
    processRow { pattern := "x", with_header := true } 1 ["a"] =
        [emitRow { pattern := "x", with_header := true } 1 ["a"]] := by
  have h := (header_policy { pattern := "x", with_header := true } ["a"]).1
  simpa using h



/-- A hyphen-free token whose integer value is `n + 1` with `n < max_cols`
adds the 0-indexed position `n` and emits no warning. -/
theorem processToken_single_ok (m : ℕ) (acc : ParseResult) (tok : String) (n : ℕ)
    (hsplit : splitFirst '-' (pyStrip tok).toList = none)
    (hint : pyIntL (pyStrip tok).toList = some ((n : ℤ) + 1))
    (hm : n < m) :
    processToken m acc tok = some ⟨insert n acc.columns, acc.warnings⟩ := by
  have hcond : ¬(((n : ℤ) + 1) - 1 < 0 ∨ (m : ℤ) ≤ ((n : ℤ) + 1) - 1) := by omega
  have htn : (((n : ℤ) + 1) - 1).toNat = n := by omega
  simp only [processToken, hsplit, hint, hcond, if_neg, htn]
  simp [htn]

/-- A token with a hyphen whose two sides parse as integers `a` and `b`
adds exactly the in-bounds part of the 0-indexed range `[a-1, b-1]`, warns
iff the range exceeds the bounds, and never aborts. -/
theorem processToken_range_ok (m : ℕ) (acc : ParseResult) (tok : String)
    (s e : List Char) (a b : ℤ)
    (hsplit : splitFirst '-' (pyStrip tok).toList = some (s, e))
    (hs : pyIntL s = some a) (he : pyIntL e = some b) :
    processToken m acc tok =
      some ⟨acc.columns ∪ rangePositions (a - 1) (b - 1) m,
        acc.warnings + (if a - 1 < 0 ∨ (m : ℤ) ≤ b - 1 then 1 else 0)⟩ := by
  simp only [processToken, hsplit, hs, he]

/-- C3: the comma-separated 1-indexed column spec maps to the set of
0-indexed in-bounds positions with set semantics: "1,3" yields \x7b0, 2\x7d for
max_cols at least 3, "2-4" yields \x7b1, 2, 3\x7d for max_cols at least 4, and
the overlapping "1,1-2" collapses to \x7b0, 1\x7d. -/
theorem parse_column_spec_examples :
    (∀ m : ℕ, 3 ≤ m →
      (parse_column_spec "1,3" m).map ParseResult.columns = some {0, 2})
    ∧ (∀ m : ℕ, 4 ≤ m →
      (parse_column_spec "2-4" m).map ParseResult.columns = some {1, 2, 3})
    ∧ (∀ m : ℕ, 2 ≤ m →
      (parse_column_spec "1,1-2" m).map ParseResult.columns = some {0, 1}) := by
  refine ⟨fun m hm => ?_, fun m hm => ?_, fun m hm => ?_⟩
  · have t1 : processToken m ⟨∅, 0⟩ (String.mk ['1']) =
        some ⟨insert 0 (∅ : Finset ℕ), 0⟩ :=
      processToken_single_ok m _ _ 0 rfl rfl (by omega)
    have t2 : processToken m ⟨{0}, 0⟩ "3" =
        some ⟨insert 2 ({0} : Finset ℕ), 0⟩ :=
      processToken_single_ok m _ _ 2 rfl rfl (by omega)
    have hset : insert 2 ({0} : Finset ℕ) = {0, 2} := by decide
    simp only [parse_column_spec]
    rw [show splitAll ',' "1,3".toList = [['1'], ['3']] from rfl]
    simp [List.foldlM_cons, List.foldlM_nil, t1, t2, hset]
  · have t1 : processToken m ⟨∅, 0⟩ (String.mk ['2', '-', '4']) =
        some ⟨(∅ : Finset ℕ) ∪ rangePositions 1 3 m,
          0 + (if (2 : ℤ) - 1 < 0 ∨ (m : ℤ) ≤ (4 : ℤ) - 1 then 1 else 0)⟩ :=
      processToken_range_ok m _ _ ['2'] ['4'] 2 4 rfl rfl rfl
    have hset : (∅ : Finset ℕ) ∪ rangePositions 1 3 m = {1, 2, 3} := by
      ext i
      simp only [rangePositions, Finset.mem_union, Finset.mem_filter,
        Finset.mem_range, Finset.not_mem_empty, false_or, Finset.mem_insert,
        Finset.mem_singleton]
      omega
    simp only [parse_column_spec]
    rw [show splitAll ',' "2-4".toList = [['2', '-', '4']] from rfl]
    simp [List.foldlM_cons, List.foldlM_nil, t1, hset]
  · have t1 : processToken m ⟨∅, 0⟩ (String.mk ['1']) =
        some ⟨insert 0 (∅ : Finset ℕ), 0⟩ :=
      processToken_single_ok m _ _ 0 rfl rfl (by omega)
    have t2 : processToken m ⟨{0}, 0⟩ "1-2" =
        some ⟨({0} : Finset ℕ) ∪ rangePositions 0 1 m,
          0 + (if (1 : ℤ) - 1 < 0 ∨ (m : ℤ) ≤ (2 : ℤ) - 1 then 1 else 0)⟩ :=
      processToken_range_ok m _ _ ['1'] ['2'] 1 2 rfl rfl rfl
    have hset : ({0} : Finset ℕ) ∪ rangePositions 0 1 m = {0, 1} := by
      ext i
      simp only [rangePositions, Finset.mem_union, Finset.mem_filter,
        Finset.mem_range, Finset.mem_insert, Finset.not_mem_empty, or_false,
        Finset.mem_singleton]
      omega
    simp only [parse_column_spec]
    rw [show splitAll ',' "1,1-2".toList = [['1'], ['1', '-', '2']] from rfl]
    simp [List.foldlM_cons, List.foldlM_nil, t1, t2, hset]

/-- Witness for C3 at max_cols 4: all three example specs evaluate as
claimed. -/
theorem parse_column_spec_examples_witness :
    (parse_column_spec "1,3" 4).map ParseResult.columns = some {0, 2}
    ∧ (parse_column_spec "2-4" 4).map ParseResult.columns = some {1, 2, 3}
    ∧ (parse_column_spec "1,1-2" 4).map ParseResult.columns = some {0, 1} :=
  ⟨parse_column_spec_examples.1 4 (by omega),
   parse_column_spec_examples.2.1 4 (by omega),
   parse_column_spec_examples.2.2 4 (by omega)⟩

theorem negative_token_aborts :
    pyInt "-1" = some (-1)
    ∧ parse_column_spec "-1" 3 = none
    ∧ csvgrep { pattern := "", columns := some "-1" } (fun _ => none)
        (some [["a", "b", "c"]]) = ⟨[], .failure⟩ :=
  ⟨by decide, by decide, by decide⟩

/-- C4 (amended): a hyphen-free token that is a valid integer outside
[1, max_cols] warns and is dropped; a token containing a hyphen whose two
sides parse as integers never aborts and keeps exactly the in-bounds
positions, warning when the range exceeds the bounds; the parser aborts
exactly when the relevant int conversion fails (which includes negative
single tokens, whose leading hyphen yields an empty range start); and a
spec that parses leaves the exit status at success, warnings
notwithstanding. -/
theorem column_token_policy :
    (∀ (m : ℕ) (acc : ParseResult) (tok : String) (n : ℤ),
      splitFirst '-' (pyStrip tok).toList = none →
      pyIntL (pyStrip tok).toList = some n →
      (n ≤ 0 ∨ (m : ℤ) < n) →
      processToken m acc tok = some ⟨acc.columns, acc.warnings + 1⟩)
    ∧ (∀ (m : ℕ) (acc : ParseResult) (tok : String) (s e : List Char) (a b : ℤ),
      splitFirst '-' (pyStrip tok).toList = some (s, e) →
      pyIntL s = some a → pyIntL e = some b →
      processToken m acc tok =
        some ⟨acc.columns ∪ rangePositions (a - 1) (b - 1) m,
          acc.warnings + (if a - 1 < 0 ∨ (m : ℤ) ≤ b - 1 then 1 else 0)⟩)
    ∧ (∀ (m : ℕ) (acc : ParseResult) (tok : String),
      processToken m acc tok = none ↔
        (match splitFirst '-' (pyStrip tok).toList with
         | some (s, e) => pyIntL s = none ∨ pyIntL e = none
         | none => pyIntL (pyStrip tok).toList = none))
    ∧ (∀ (a : Args) (rf : String → Bool) (rows : List Row) (spec : String)
        (pr : ParseResult),
      a.columns = some spec → ¬(spec == "") →
      parse_column_spec spec ((rows.map List.length).foldl Nat.max 0) = some pr →
      (csvgrepScan a rf (some rows)).exit = .success) := by
  refine ⟨?_, ?_, ?_, ?_⟩
  · intro m acc tok n hsplit hint hn
    have hcond : n - 1 < 0 ∨ (m : ℤ) ≤ n - 1 := by omega
    simp only [processToken, hsplit, hint, hcond, if_true]
  · intro m acc tok s e a b hsplit hs he
    simp only [processToken, hsplit, hs, he]
  · intro m acc tok
    simp only [processToken]
    cases hsplit : splitFirst '-' (pyStrip tok).toList with
    | none =>
        cases hint : pyIntL (pyStrip tok).toList with
        | none => simp
        | some n =>
            simp only [hint]
            split <;> simp
    | some p =>
        obtain ⟨s, e⟩ := p
        cases hs : pyIntL s with
        | none => simp [hs]
        | some a =>
            cases he : pyIntL e with
            | none => simp [hs, he]
            | some b => simp [hs, he]
  · intro a rf rows spec pr hcols hspec hparse
    by_cases hrows : rows = []
    · simp [csvgrepScan, hrows]
    · simp only [csvgrepScan]
      rw [if_neg hrows]
      simp only [hcols]
      rw [if_neg hspec]
      simp only [hparse]

/-- Witness for C4 (amended): the out-of-bounds token "5" on max_cols 3
warns, is dropped, and the invocation still exits successfully. -/
theorem column_token_policy_witness :
    processToken 3 ⟨∅, 0⟩ "5" = some ⟨∅, 0 + 1⟩
    ∧ (csvgrepScan { pattern := "", columns := some "5" } (fun _ => false)
        (some [["a", "b", "c"]])).exit = .success :=
  ⟨column_token_policy.1 3 ⟨∅, 0⟩ "5" 5 rfl rfl (by omega),
   column_token_policy.2.2.2 { pattern := "", columns := some "5" } _ _ "5"
     ⟨∅, 1⟩ rfl (by decide) (by decide)⟩

/-- Enumerating a sorted finset and keeping the in-bounds part equals
filtering the ascending range by membership. -/
theorem sort_filter_eq_range_filter (cols : Finset ℕ) (n : ℕ) :
    (cols.sort (· ≤ ·)).filter (fun i => i < n) =
      (List.range n).filter (fun i => i ∈ cols) := by
  apply List.eq_of_perm_of_sorted (r := (· ≤ ·))
  · apply List.perm_of_nodup_nodup_toFinset_eq
    · exact (Finset.sort_nodup _ _).filter _
    · exact (List.nodup_range n).filter _
    · ext i
      simp only [List.mem_toFinset, List.mem_filter, Finset.mem_sort,
        List.mem_range, decide_eq_true_eq]
      tauto
  · exact List.Pairwise.filter _ (Finset.sort_sorted _ _)
  · exact List.Pairwise.filter _ ((List.sorted_lt_range n).le_of_lt)

/-- C5: for a nonempty column set, `filter_columns` returns the values at
the requested in-bounds positions in ascending column-index order
(positions beyond the row's length are silently omitted); an absent or
empty column set returns the row unchanged. -/
theorem filter_columns_ascending (row : Row) (cols : Finset ℕ) :
    (cols ≠ ∅ →
      filter_columns row (some cols) =
        ((List.range row.length).filter (fun i => i ∈ cols)).map
          (fun i => row.getD i ""))
    ∧ filter_columns row none = row
    ∧ filter_columns row (some ∅) = row := by
  refine ⟨fun hne => ?_, rfl, by simp [filter_columns]⟩
  simp only [filter_columns]
  rw [if_neg hne, sort_filter_eq_range_filter]

/-- Witness for C5: the set written in the order \x7b2, 0\x7d still projects
["a", "b", "c"] in ascending order to ["a", "c"], not ["c", "a"]. -/
theorem filter_columns_ascending_witness :
    filter_columns ["a", "b", "c"] (some {2, 0}) = ["a", "c"] := by
  have h := (filter_columns_ascending ["a", "b", "c"] {2, 0}).1 (by decide)
  rw [h]
  decide

/-- C6: validation is eager — an invalid regex (compile failure with a
nonempty, non-fixed pattern) or a malformed column-spec token aborts the
invocation with empty stdout (no partial output) and a non-zero exit. -/
theorem eager_validation (a : Args) (compile : String → Option (String → Bool))
    (file : Option (List Row)) :
    (¬(a.pattern == "") → a.fixed_strings = false → compile a.pattern = none →
      csvgrep a compile file = ⟨[], .failure⟩)
    ∧ (∀ (rows : List Row) (spec : String),
        file = some rows → rows ≠ [] → a.columns = some spec → ¬(spec == "") →
        parse_column_spec spec ((rows.map List.length).foldl Nat.max 0) = none →
        (a.pattern = "" ∨ a.fixed_strings = true ∨
          ∃ rf, compile a.pattern = some rf) →
        csvgrep a compile file = ⟨[], .failure⟩) := by
  constructor
  · intro hp hf hc
    unfold csvgrep
    rw [if_pos (by simp [hp, hf]), hc]
  · intro rows spec hfile hrows hcols hspec hparse hcomp
    subst hfile
    have hscan : ∀ rf, csvgrepScan a rf (some rows) = ⟨[], .failure⟩ := by
      intro rf
      simp only [csvgrepScan]
      rw [if_neg hrows]
      simp only [hcols]
      rw [if_neg hspec]
      simp only [hparse]
    unfold csvgrep
    by_cases hcond : (!(a.pattern == "") && !a.fixed_strings) = true
    · rw [if_pos hcond]
      rcases hcomp with hp | hf | ⟨rf, hrf⟩
      · simp [hp] at hcond
      · simp [hf] at hcond
      · rw [hrf]
        exact hscan rf
    · rw [if_neg hcond]
      exact hscan _

/-- Witness for C6: a failing compile and a non-integer column token each
abort with no output. -/
theorem eager_validation_witness :
    csvgrep { pattern := "bad(" } (fun _ => none) (some [["a"]]) =
        ⟨[], .failure⟩
    ∧ csvgrep { pattern := "", columns := some "x" } (fun _ => none)
        (some [["a"]]) = ⟨[], .failure⟩ :=
  ⟨(eager_validation { pattern := "bad(" } (fun _ => none) (some [["a"]])).1
      (by decide) rfl rfl,
   (eager_validation { pattern := "", columns := some "x" } (fun _ => none)
      (some [["a"]])).2 [["a"]] "x" rfl (by decide) rfl (by decide) (by decide)
      (Or.inl rfl)⟩

/-- C7: invert-match is a pure boolean flip — a data row is emitted under
the flipped configuration exactly when it is not emitted under the
original, and flipping twice restores the original configuration; the
per-row decision carries no state between rows. -/
theorem invert_match_flip (cfg : Config) (n : ℕ) (row : Row) (h : 2 ≤ n) :
    ((processRow (flipInvert cfg) n row ≠ []) ↔ ¬(processRow cfg n row ≠ []))
    ∧ flipInvert (flipInvert cfg) = cfg := by
  obtain ⟨p, cf, ic, fs, iv, sl, wh, nh, d, rf⟩ := cfg
  have h1 : n ≠ 1 := by omega
  constructor
  · have hM : rowMatches ⟨p, cf, ic, fs, !iv, sl, wh, nh, d, rf⟩ row =
        rowMatches ⟨p, cf, ic, fs, iv, sl, wh, nh, d, rf⟩ row := rfl
    have hE : ∀ k, emitRow ⟨p, cf, ic, fs, !iv, sl, wh, nh, d, rf⟩ k row =
        emitRow ⟨p, cf, ic, fs, iv, sl, wh, nh, d, rf⟩ k row := fun _ => rfl
    simp only [flipInvert, processRow, if_neg h1, hM, hE]
    cases hm : rowMatches ⟨p, cf, ic, fs, iv, sl, wh, nh, d, rf⟩ row <;>
      cases hiv : iv <;> simp
  · simp [flipInvert]

/-- Witness for C7 at a concrete data row. -/
theorem invert_match_flip_witness :
    ((processRow (flipInvert { pattern := "" }) 2 ["a"] ≠ []) ↔
      ¬(processRow { pattern := "" } 2 ["a"] ≠ []))
    ∧ flipInvert (flipInvert { pattern := "" }) = { pattern := "" } :=
  invert_match_flip { pattern := "" } 2 ["a"] (by omega)

/-- `strContains` is substring occurrence: some split of the hay around
the needle exists. -/
theorem strContains_iff (hay needle : String) :
    strContains hay needle = true ↔ ∃ s t : String, hay = s ++ needle ++ t := by
  unfold strContains
  rw [decide_eq_true_iff]
  constructor
  · rintro ⟨s, t, hst⟩
    refine ⟨String.mk s, String.mk t, String.ext ?_⟩
    simp only [String.data_append]
    exact hst.symm
  · rintro ⟨s, t, rfl⟩
    exact ⟨s.data, t.data, by simp [String.data_append]⟩

/-- C8: with fixed_strings and ignore_case set and a nonempty pattern, a
row matches iff the lower-cased pattern occurs as a substring of the
lower-cased delimiter-joined row text. -/
theorem fixed_ignore_case_match (cfg : Config) (row : Row)
    (hf : cfg.fixed_strings = true) (hi : cfg.ignore_case = true)
    (hp : cfg.pattern ≠ "") :
    rowMatches cfg row = true ↔
      ∃ s t : String,
        pyLower (String.intercalate cfg.delimiter row) =
          s ++ pyLower cfg.pattern ++ t := by
  have hp2 : (cfg.pattern == "") = false := by simpa using hp
  unfold rowMatches
  rw [hf, hi, hp2]
  simp only [Bool.not_false, Bool.and_self, if_true, if_pos]
  exact strContains_iff _ _

/-- Witness for C8: pattern "ERROR" matches a row whose joined text
contains "error occurred". -/
theorem fixed_ignore_case_match_witness :
    rowMatches
      { pattern := "ERROR", fixed_strings := true, ignore_case := true }
      ["log", "error occurred", "x"] = true := by
  have h := fixed_ignore_case_match
    { pattern := "ERROR", fixed_strings := true, ignore_case := true }
    ["log", "error occurred", "x"] rfl rfl (by decide)
  rw [h]
  exact ⟨"log,", " occurred,x", by decide⟩

/-- C9: `detect_delimiter` is total (never raises): it returns the comma
on any failure — unreadable file or failed sniff of the 4096-character
sample — and returns the sniffed delimiter when the sniff succeeds. -/
theorem detect_delimiter_policy (readFile : Option String)
    (sniff : String → Option String) :
    (readFile = none → detect_delimiter readFile sniff = ",")
    ∧ (∀ c, readFile = some c → sniff (c.take 4096) = none →
        detect_delimiter readFile sniff = ",")
    ∧ (∀ c d, readFile = some c → sniff (c.take 4096) = some d →
        detect_delimiter readFile sniff = d)
    ∧ (detect_delimiter readFile sniff = "," ∨
        ∃ c d, readFile = some c ∧ sniff (c.take 4096) = some d ∧
          detect_delimiter readFile sniff = d) := by
  cases readFile with
  | none => simp [detect_delimiter]
  | some c =>
      cases hs : sniff (c.take 4096) with
      | none =>
          refine ⟨by simp, fun c2 hc2 _ => ?_, fun c2 d hc2 hd => ?_, Or.inl ?_⟩
          · cases hc2
            simp [detect_delimiter, hs]
          · cases hc2
            rw [hs] at hd
            cases hd
          · simp [detect_delimiter, hs]
      | some d =>
          refine ⟨by simp, fun c2 hc2 hn => ?_, fun c2 d2 hc2 hd2 => ?_,
            Or.inr ⟨c, d, rfl, hs, ?_⟩⟩
          · cases hc2
            rw [hs] at hn
            cases hn
          · cases hc2
            rw [hs] at hd2
            cases hd2
            simp [detect_delimiter, hs]
          · simp [detect_delimiter, hs]

/-- Witness for C9: an unreadable file falls back to the comma. -/
theorem detect_delimiter_policy_witness :
    detect_delimiter none (fun _ => none) = "," :=
  (detect_delimiter_policy none (fun _ => none)).1 rfl

/-- C10: once matcher construction has succeeded (empty pattern, fixed
strings, or a compiling regex), a file that parses to zero rows produces
no output and exits successfully for every column spec — the spec is never
parsed, so even a malformed token cannot abort. -/
theorem empty_file_returns_success (a : Args)
    (compile : String → Option (String → Bool))
    (hc : a.pattern = "" ∨ a.fixed_strings = true ∨
      ∃ rf, compile a.pattern = some rf) :
    csvgrep a compile (some []) = ⟨[], .success⟩ := by
  have hscan : ∀ rf, csvgrepScan a rf (some ([] : List Row)) = ⟨[], .success⟩ := by
    intro rf
    simp [csvgrepScan]
  unfold csvgrep
  by_cases hcond : (!(a.pattern == "") && !a.fixed_strings) = true
  · rw [if_pos hcond]
    rcases hc with hp | hf | ⟨rf, hrf⟩
    · simp [hp] at hcond
    · simp [hf] at hcond
    · rw [hrf]
      exact hscan rf
  · rw [if_neg hcond]
    exact hscan _

/-- Witness for C10: the malformed column spec "bogus" (whose parse would
abort) is never reached on an empty file; the run succeeds with no
output. -/
theorem empty_file_returns_success_witness :
    parse_column_spec "bogus" 1 = none
    ∧ csvgrep { pattern := "", columns := some "bogus" } (fun _ => none)
        (some []) = ⟨[], .success⟩ :=
  ⟨by decide,
   empty_file_returns_success { pattern := "", columns := some "bogus" }
     (fun _ => none) (Or.inl rfl)⟩


end CsvGrep
